import Mathlib

/-!
Verification development for the image-fill-rotate resampling algorithm
(`image_fill_rotate.py`, method `get_tiled_rotated_image`, lines 29-62).

The algorithm is embedded shallowly:

* Per-pixel real arithmetic is carried out in an arbitrary `LinearOrderedField`
  with a `FloorRing` structure (instantiated at `ℚ` or `ℝ`); `astype("int")`
  becomes truncation toward zero, numpy's float `%` becomes floor-mod.
  Division by zero follows the Lean convention `v / 0 = 0` where numpy would
  produce a non-finite float; in every theorem below that touches a
  zero-sized axis the observable outcome is an indexing failure either way,
  never a numeric value.
* The trigonometric stage (lines 36-37) is modelled exactly over `ℝ` via
  `Real.sin`/`Real.cos`; the rest of the pipeline is parameterized by the
  two values `sin`/`cos` produced by that stage.
* A numpy array of shape `(oheight, owidth)` or `(oheight, owidth, channels)`
  is a (rectangular) nested list; fancy indexing that would raise `IndexError`
  returns `none`, and `get_tiled_rotated_image` returns an `Except` value,
  with an error for each way the numpy code can raise.
-/

namespace ImageFillRotate

/-- Truncation toward zero of a real quantity, the semantics of numpy's
`astype("int")` cast used on lines 48, 49 and 58-59 of the source. -/
def fptrunc {K : Type} [LinearOrderedField K] [FloorRing K] (x : K) : ℤ :=
  if 0 ≤ x then ⌊x⌋ else ⌈x⌉

/-- Conditional wrap adjustment, the per-element semantics of the nested
`np.where` on lines 46-50 (and symmetrically 52-56) of the source:
if `owidth <= v` then `v - owidth * int(v / owidth)`, else if `v < 0` then
`v + owidth * (abs(int(v / owidth)) + 1)`, else `v`. -/
def wrapAdjust {K : Type} [LinearOrderedField K] [FloorRing K] (w : ℕ) (v : K) : K :=
  if (w : K) ≤ v then v - (w : K) * ((fptrunc (v / (w : K)) : ℤ) : K)
  else if v < 0 then v + (w : K) * ((((fptrunc (v / (w : K))).natAbs + 1 : ℕ) : K))
  else v

/-- Floor-mod on reals, the semantics of numpy's float `%` with a
positive modulus (lines 58-59): `v - w * floor(v / w)`. -/
def npFloorMod {K : Type} [LinearOrderedField K] [FloorRing K] (v : K) (w : ℕ) : K :=
  v - (w : K) * ((⌊v / (w : K)⌋ : ℤ) : K)

/-- Final step of the wrap normalizer (lines 58-59 of the source):
`(v % owidth).astype("int")` — float floor-mod first, then integer cast. -/
def wrapFinal {K : Type} [LinearOrderedField K] [FloorRing K] (w : ℕ) (v : K) : ℤ :=
  fptrunc (npFloorMod v w)

/-- The whole wrap-normalization stage for one coordinate (lines 46-59):
conditional adjustment, then floor-mod and integer truncation. -/
def normalizeIdx {K : Type} [LinearOrderedField K] [FloorRing K] (w : ℕ) (v : K) : ℤ :=
  wrapFinal w (wrapAdjust w v)

/-- Rotated x-coordinate `nx = xc * cos - yc * sin` (line 41), for the canvas
cell in column `x`, row `y`. -/
def rotX {K : Type} [LinearOrderedField K] [FloorRing K] (sinA cosA : K) (x y : ℕ) : K :=
  (x : K) * cosA - (y : K) * sinA

/-- Rotated y-coordinate `ny = xc * sin + yc * cos` (line 42). -/
def rotY {K : Type} [LinearOrderedField K] [FloorRing K] (sinA cosA : K) (x y : ℕ) : K :=
  (x : K) * sinA + (y : K) * cosA

/-- Integer source-column index sampled for canvas cell `(x, y)`:
`newx = nx + owidth2` (line 43, with `owidth2 = owidth // 2`, line 35)
pushed through the wrap normalizer (lines 46-50 and 58). -/
def sampleIdxX {K : Type} [LinearOrderedField K] [FloorRing K] (sinA cosA : K) (ow : ℕ) (x y : ℕ) : ℤ :=
  normalizeIdx ow (rotX sinA cosA x y + ((ow / 2 : ℕ) : K))

/-- Integer source-row index sampled for canvas cell `(x, y)`:
`newy = ny + oheight2` (line 44) pushed through the wrap normalizer
(lines 52-56 and 59). -/
def sampleIdxY {K : Type} [LinearOrderedField K] [FloorRing K] (sinA cosA : K) (oh : ℕ) (x y : ℕ) : ℤ :=
  normalizeIdx oh (rotY sinA cosA x y + ((oh / 2 : ℕ) : K))

/-- Positional lookup in a list, `none` when out of range. -/
def listNth {P : Type} : List P → ℕ → Option P
  | [], _ => none
  | a :: _, 0 => some a
  | _ :: l, n + 1 => listNth l n

/-- Total positional lookup with a fallback value. -/
def listNthD {P : Type} (l : List P) (n : ℕ) (d : P) : P :=
  (listNth l n).getD d

/-- Indexing one numpy axis with an integer index: indices in `[0, len)` are
direct, indices in `[-len, 0)` count from the end, anything else raises
`IndexError` (modelled as `none`). -/
def npGet {P : Type} (l : List P) (i : ℤ) : Option P :=
  if 0 ≤ i then listNth l i.toNat
  else if -(l.length : ℤ) ≤ i then listNth l (i + l.length).toNat
  else none

/-- The sample `image[newy, newx]` read for canvas cell `(x, y)` (line 61,
right-hand side): the row `newy`, then the entry `newx` of that row. For a
3-D image an entry of a row is a whole channel vector, which is copied as a
unit. `oheight` is `image.shape[0]` and `owidth` is `image.shape[1]`
(line 34), i.e. the length of the row list and of its first row. -/
def sampleCell {K : Type} [LinearOrderedField K] [FloorRing K] {P : Type}
    (rows : List (List P)) (sinA cosA : K) (x y : ℕ) : Option P :=
  (npGet rows (sampleIdxY sinA cosA rows.length x y)).bind fun row =>
    npGet row (sampleIdxX sinA cosA (rows.headD []).length x y)

/-- Collect a list of optional values, failing if any entry is `none` —
the all-or-nothing behaviour of numpy fancy indexing, which raises
`IndexError` as soon as any gathered index is out of bounds. -/
def optTraverse {P : Type} : List (Option P) → Option (List P)
  | [] => some []
  | o :: rest => o.bind fun b => Option.map (fun bs => b :: bs) (optTraverse rest)

/-- All samples `image[newy, newx]` for the full target canvas, row-major
over the index grids produced by `np.indices((height, width))` (line 33):
cell `(r, c)` uses `xc = c`, `yc = r` (lines 39-40). -/
def buildSamples {K : Type} [LinearOrderedField K] [FloorRing K] {P : Type}
    (rows : List (List P)) (w h : ℕ) (sinA cosA : K) : Option (List (List P)) :=
  optTraverse ((List.range h).map fun r =>
    optTraverse ((List.range w).map fun c => sampleCell rows sinA cosA c r))

/-- Ways the numpy code can raise inside `get_tiled_rotated_image`:
a gathered index out of bounds on the right-hand side of line 61
(`IndexError: index out of bounds`), or indexing the 2-D output array
`new_img` with the three indices `[indices[0], indices[1], :]` on line 61
(`IndexError: too many indices for array`). -/
inductive NPErr : Type where
  | indexError : NPErr
  | tooManyIndices : NPErr
  deriving DecidableEq

/-- A numpy image array: 2-D grayscale `(oheight, owidth)`, rows of pixels,
or 3-D `(oheight, owidth, channels)`, rows of channel vectors. -/
inductive NPArr (α : Type) : Type where
  | d2 (rows : List (List α)) : NPArr α
  | d3 (rows : List (List (List α))) : NPArr α
  deriving DecidableEq

instance instDecEqExcept {ε α : Type} [DecidableEq ε] [DecidableEq α] : DecidableEq (Except ε α) := fun x y =>
  match x, y with
  | Except.ok a, Except.ok b =>
    if h : a = b then Decidable.isTrue (by rw [h])
    else Decidable.isFalse (by intro hh; cases hh; exact h rfl)
  | Except.error e, Except.error f =>
    if h : e = f then Decidable.isTrue (by rw [h])
    else Decidable.isFalse (by intro hh; cases hh; exact h rfl)
  | Except.ok _, Except.error _ => Decidable.isFalse (fun hh => Except.noConfusion hh)
  | Except.error _, Except.ok _ => Decidable.isFalse (fun hh => Except.noConfusion hh)

/-- The core transform, `get_tiled_rotated_image` (lines 29-62 of the
source), parameterized by the values `sin`/`cos` computed on line 37.
`new_img` is allocated 2-D or 3-D according to the source (line 32); the
assignment `new_img[indices[0], indices[1], :] = image[newy, newx]`
(line 61) first gathers all samples (its right-hand side, raising
`IndexError` if any index is out of bounds) and then indexes `new_img` with
three indices — which succeeds for a 3-D `new_img` and raises
`IndexError: too many indices` for a 2-D one. -/
def get_tiled_rotated_image {K : Type} [LinearOrderedField K] [FloorRing K] {α : Type}
    (w h : ℕ) (image : NPArr α) (sinA cosA : K) : Except NPErr (NPArr α) :=
  match image with
  | NPArr.d2 rows =>
    match buildSamples rows w h sinA cosA with
    | none => Except.error NPErr.indexError
    | some _ => Except.error NPErr.tooManyIndices
  | NPArr.d3 rows =>
    match buildSamples rows w h sinA cosA with
    | none => Except.error NPErr.indexError
    | some out => Except.ok (NPArr.d3 out)

/-- Degrees to radians, `angle = np.pi * angle / 180` (line 36). -/
noncomputable def deg2rad (θ : ℝ) : ℝ := Real.pi * θ / 180

/-- The transform as a function of the angle in degrees, with the
trigonometric stage (lines 36-37) modelled exactly over `ℝ`. -/
noncomputable def transformAngle {α : Type} (w h : ℕ) (image : NPArr α) (θ : ℝ) : Except NPErr (NPArr α) :=
  get_tiled_rotated_image w h image (Real.sin (deg2rad θ)) (Real.cos (deg2rad θ))

/-- Specification-side description of the zero-angle output (claim C10): the
source translated by its half-dimensions with toroidal wraparound, tiled
over the `h × w` canvas — pixel `(r, c)` is source pixel
`((r + oheight / 2) % oheight, (c + owidth / 2) % owidth)`. -/
def halfShiftTiled {α : Type} (rows : List (List (List α))) (w h : ℕ) : List (List (List α)) :=
  (List.range h).map fun r => (List.range w).map fun c =>
    listNthD (listNthD rows ((r + rows.length / 2) % rows.length) [])
      ((c + (rows.headD []).length / 2) % (rows.headD []).length) []

/-! Arithmetic facts about the wrap normalizer. -/

theorem fptrunc_of_nonneg {K : Type} [LinearOrderedField K] [FloorRing K] {x : K} (h : 0 ≤ x) :
    fptrunc x = ⌊x⌋ :=
  if_pos h

theorem fptrunc_of_neg {K : Type} [LinearOrderedField K] [FloorRing K] {x : K} (h : x < 0) :
    fptrunc x = ⌈x⌉ :=
  if_neg (not_le.mpr h)

theorem npFloorMod_bounds {K : Type} [LinearOrderedField K] [FloorRing K] {w : ℕ} (hw : 0 < w) (v : K) :
    0 ≤ npFloorMod v w ∧ npFloorMod v w < (w : K) := by
  have hw' : (0 : K) < (w : K) := by exact_mod_cast hw
  have hne : (w : K) ≠ 0 := ne_of_gt hw'
  have hv : (w : K) * (v / (w : K)) = v := by
    rw [mul_comm]
    exact div_mul_cancel₀ v hne
  have h1 : (w : K) * ((⌊v / (w : K)⌋ : ℤ) : K) ≤ (w : K) * (v / (w : K)) :=
    mul_le_mul_of_nonneg_left (Int.floor_le _) (le_of_lt hw')
  have h2 : (w : K) * (v / (w : K)) < (w : K) * (((⌊v / (w : K)⌋ : ℤ) : K) + 1) :=
    (mul_lt_mul_left hw').mpr (Int.lt_floor_add_one _)
  rw [mul_add, mul_one] at h2
  unfold npFloorMod
  constructor <;> linarith

theorem wrapFinal_bounds {K : Type} [LinearOrderedField K] [FloorRing K] {w : ℕ} (hw : 0 < w) (v : K) :
    0 ≤ wrapFinal w v ∧ wrapFinal w v < (w : ℤ) := by
  obtain ⟨h0, h1⟩ := npFloorMod_bounds hw v
  unfold wrapFinal
  rw [fptrunc_of_nonneg h0]
  constructor
  · exact Int.floor_nonneg.mpr h0
  · rw [Int.floor_lt]
    exact_mod_cast h1

theorem normalizeIdx_one {K : Type} [LinearOrderedField K] [FloorRing K] (v : K) :
    normalizeIdx 1 v = 0 := by
  obtain ⟨h0, h1⟩ := wrapFinal_bounds Nat.one_pos (wrapAdjust 1 v)
  unfold normalizeIdx
  omega

theorem wrapAdjust_bounds {K : Type} [LinearOrderedField K] [FloorRing K] {w : ℕ} (hw : 0 < w) (v : K) :
    0 ≤ wrapAdjust w v ∧ wrapAdjust w v ≤ (w : K) := by
  have hw' : (0 : K) < (w : K) := by exact_mod_cast hw
  unfold wrapAdjust
  split_ifs with h1 h2
  · have hv0 : (0 : K) ≤ v := le_trans (Nat.cast_nonneg w) h1
    have hq : (0 : K) ≤ v / (w : K) := div_nonneg hv0 (le_of_lt hw')
    rw [fptrunc_of_nonneg hq]
    have hb := npFloorMod_bounds hw v
    unfold npFloorMod at hb
    exact ⟨hb.1, le_of_lt hb.2⟩
  · have hq : v / (w : K) < 0 := div_neg_of_neg_of_pos h2 hw'
    rw [fptrunc_of_neg hq]
    have hc : ⌈v / (w : K)⌉ ≤ 0 := by
      rw [Int.ceil_le]
      push_cast
      exact le_of_lt hq
    have hb := npFloorMod_bounds hw (-v)
    unfold npFloorMod at hb
    have hfl : ⌊(-v) / (w : K)⌋ = -⌈v / (w : K)⌉ := by rw [neg_div, Int.floor_neg]
    rw [hfl] at hb
    have hnaK : ((⌈v / (w : K)⌉.natAbs : ℕ) : K) = -((⌈v / (w : K)⌉ : ℤ) : K) := by
      rw [Int.cast_natAbs, abs_of_nonpos hc, Int.cast_neg]
    push_cast at hb ⊢
    rw [hnaK]
    constructor <;> linarith [hb.1, hb.2]
  · exact ⟨not_lt.mp h2, le_of_lt (not_le.mp h1)⟩

theorem floor_natCast_div {K : Type} [LinearOrderedField K] [FloorRing K] (n w : ℕ) :
    ⌊((n : K)) / ((w : K))⌋ = ((n / w : ℕ) : ℤ) := by
  rcases Nat.eq_zero_or_pos w with hw | hw
  · subst hw
    simp
  · have hw' : (0 : K) < (w : K) := by exact_mod_cast hw
    rw [Int.floor_eq_iff]
    constructor
    · rw [le_div_iff₀ hw']
      have hle : n / w * w ≤ n := Nat.div_mul_le_self n w
      push_cast
      exact_mod_cast hle
    · rw [div_lt_iff₀ hw']
      have hlt : n < (n / w + 1) * w := by
        calc n = w * (n / w) + n % w := (Nat.div_add_mod n w).symm
          _ < w * (n / w) + w := Nat.add_lt_add_left (Nat.mod_lt n hw) _
          _ = (n / w + 1) * w := by ring
      push_cast
      exact_mod_cast hlt

theorem wrapAdjust_natCast {K : Type} [LinearOrderedField K] [FloorRing K] (w n : ℕ) :
    wrapAdjust w ((n : ℕ) : K) = ((n % w : ℕ) : K) := by
  unfold wrapAdjust
  split_ifs with h1 h2
  · have hq : (0 : K) ≤ (n : K) / (w : K) := div_nonneg (Nat.cast_nonneg n) (Nat.cast_nonneg w)
    rw [fptrunc_of_nonneg hq, floor_natCast_div]
    have hdm : w * (n / w) + n % w = n := Nat.div_add_mod n w
    have hdmK : ((w : K)) * ((n / w : ℕ) : K) + ((n % w : ℕ) : K) = (n : K) := by
      exact_mod_cast congrArg (fun m : ℕ => (m : K)) hdm
    rw [Int.cast_natCast]
    linarith
  · exact absurd h2 (not_lt.mpr (Nat.cast_nonneg n))
  · have hnw : n < w := by
      have := not_le.mp h1
      exact_mod_cast this
    rw [Nat.mod_eq_of_lt hnw]

theorem wrapFinal_natCast {K : Type} [LinearOrderedField K] [FloorRing K] {w m : ℕ} (h : m < w) :
    wrapFinal w ((m : ℕ) : K) = (m : ℤ) := by
  unfold wrapFinal npFloorMod
  rw [floor_natCast_div, Nat.div_eq_of_lt h]
  norm_num
  rw [fptrunc_of_nonneg (Nat.cast_nonneg m), Int.floor_natCast]

theorem normalizeIdx_natCast {K : Type} [LinearOrderedField K] [FloorRing K] {w : ℕ} (hw : 0 < w) (n : ℕ) :
    normalizeIdx w ((n : ℕ) : K) = ((n % w : ℕ) : ℤ) := by
  unfold normalizeIdx
  rw [wrapAdjust_natCast w n, wrapFinal_natCast (Nat.mod_lt n hw)]

/-! The adjusted coordinate lies in `[0, owidth]`, and on that interval the
final wrap step computes the same value as truncation-then-integer-modulo. -/

theorem wrapFinal_wrapAdjust_eq_trunc_mod {K : Type} [LinearOrderedField K] [FloorRing K]
    {w : ℕ} (hw : 0 < w) (v : K) :
    wrapFinal w (wrapAdjust w v) = fptrunc (wrapAdjust w v) % (w : ℤ) := by
  obtain ⟨h0, h1⟩ := wrapAdjust_bounds hw v
  set u : K := wrapAdjust w v with hu
  rcases lt_or_eq_of_le h1 with hlt | heq
  · have hw' : (0 : K) < (w : K) := by exact_mod_cast hw
    have hq0 : (0 : K) ≤ u / (w : K) := div_nonneg h0 (le_of_lt hw')
    have hq1 : u / (w : K) < 1 := (div_lt_one hw').mpr hlt
    have hfl0 : ⌊u / (w : K)⌋ = 0 := Int.floor_eq_zero_iff.mpr ⟨hq0, hq1⟩
    have hmod : npFloorMod u w = u := by
      unfold npFloorMod
      rw [hfl0]
      norm_num
    unfold wrapFinal
    rw [hmod, fptrunc_of_nonneg h0]
    have hfl1 : ⌊u⌋ < (w : ℤ) := Int.floor_lt.mpr (by exact_mod_cast hlt)
    rw [Int.emod_eq_of_lt (Int.floor_nonneg.mpr h0) hfl1]
  · rw [heq]
    have hmod : npFloorMod ((w : ℕ) : K) w = 0 := by
      unfold npFloorMod
      rw [floor_natCast_div, Nat.div_self hw]
      push_cast
      ring
    unfold wrapFinal
    rw [hmod, fptrunc_of_nonneg (le_refl (0 : K)), Int.floor_zero,
      fptrunc_of_nonneg (Nat.cast_nonneg w), Int.floor_natCast, Int.emod_self]

/-! List and option-collection facts. -/

theorem listNth_lt {P : Type} (l : List P) (n : ℕ) (d : P) (h : n < l.length) :
    listNth l n = some (listNthD l n d) := by
  induction l generalizing n with
  | nil => exact absurd h (Nat.not_lt_zero n)
  | cons a l ih =>
    cases n with
    | zero => rfl
    | succ m => exact ih m (Nat.lt_of_succ_lt_succ h)

theorem listNthD_mem {P : Type} (l : List P) (n : ℕ) (d : P) (h : n < l.length) :
    listNthD l n d ∈ l := by
  induction l generalizing n with
  | nil => exact absurd h (Nat.not_lt_zero n)
  | cons a l ih =>
    cases n with
    | zero => exact List.mem_cons_self a l
    | succ m => exact List.mem_cons_of_mem a (ih m (Nat.lt_of_succ_lt_succ h))

theorem npGet_natCast {P : Type} (l : List P) (n : ℕ) :
    npGet l ((n : ℕ) : ℤ) = listNth l n := by
  unfold npGet
  rw [if_pos (Int.natCast_nonneg n), Int.toNat_natCast]

theorem npGet_nil {P : Type} (i : ℤ) : npGet ([] : List P) i = none := by
  unfold npGet
  split_ifs <;> rfl

theorem optTraverse_eq_some {γ P : Type} (f : γ → Option P) (g : γ → P) (l : List γ)
    (hf : ∀ a ∈ l, f a = some (g a)) :
    optTraverse (l.map f) = some (l.map g) := by
  induction l with
  | nil => rfl
  | cons a l ih =>
    have ha := hf a (List.mem_cons_self a l)
    have hl := ih (fun b hb => hf b (List.mem_cons_of_mem a hb))
    simp only [List.map_cons]
    unfold optTraverse
    rw [ha, hl]
    rfl

theorem optTraverse_eq_none {γ P : Type} (f : γ → Option P) (l : List γ) (a : γ)
    (ha : a ∈ l) (hfa : f a = none) :
    optTraverse (l.map f) = none := by
  induction l with
  | nil => exact absurd ha (List.not_mem_nil a)
  | cons b l ih =>
    simp only [List.map_cons]
    unfold optTraverse
    rcases List.mem_cons.mp ha with h | h
    · rw [h] at hfa
      rw [hfa]
      rfl
    · rw [ih h]
      cases hfb : f b
      · rfl
      · rfl

theorem optTraverse_isSome {γ P : Type} (f : γ → Option P) (l : List γ)
    (hf : ∀ a ∈ l, (f a).isSome = true) :
    (optTraverse (l.map f)).isSome = true := by
  induction l with
  | nil => rfl
  | cons a l ih =>
    obtain ⟨b, hb⟩ := Option.isSome_iff_exists.mp (hf a (List.mem_cons_self a l))
    obtain ⟨bs, hbs⟩ :=
      Option.isSome_iff_exists.mp (ih (fun c hc => hf c (List.mem_cons_of_mem a hc)))
    simp only [List.map_cons]
    unfold optTraverse
    rw [hb, hbs]
    rfl

/-! Per-cell behaviour of the sampler. -/

theorem sampleIdxX_zero_one {K : Type} [LinearOrderedField K] [FloorRing K]
    {ow : ℕ} (how : 0 < ow) (x y : ℕ) :
    sampleIdxX (0 : K) 1 ow x y = (((x + ow / 2) % ow : ℕ) : ℤ) := by
  unfold sampleIdxX
  have hrot : rotX (0 : K) 1 x y + ((ow / 2 : ℕ) : K) = (((x + ow / 2 : ℕ)) : K) := by
    unfold rotX
    push_cast
    ring
  rw [hrot, normalizeIdx_natCast how]

theorem sampleIdxY_zero_one {K : Type} [LinearOrderedField K] [FloorRing K]
    {oh : ℕ} (hoh : 0 < oh) (x y : ℕ) :
    sampleIdxY (0 : K) 1 oh x y = (((y + oh / 2) % oh : ℕ) : ℤ) := by
  unfold sampleIdxY
  have hrot : rotY (0 : K) 1 x y + ((oh / 2 : ℕ) : K) = (((y + oh / 2 : ℕ)) : K) := by
    unfold rotY
    push_cast
    ring
  rw [hrot, normalizeIdx_natCast hoh]

theorem sampleCell_zero_one {K : Type} [LinearOrderedField K] [FloorRing K] {α : Type}
    (rows : List (List (List α)))
    (hrect : ∀ row ∈ rows, row.length = (rows.headD []).length)
    (hoh : 0 < rows.length) (how : 0 < (rows.headD []).length) (x y : ℕ) :
    sampleCell rows (0 : K) 1 x y =
      some (listNthD (listNthD rows ((y + rows.length / 2) % rows.length) [])
        ((x + (rows.headD []).length / 2) % (rows.headD []).length) []) := by
  unfold sampleCell
  rw [sampleIdxY_zero_one hoh, npGet_natCast,
    listNth_lt rows _ [] (Nat.mod_lt _ hoh)]
  have hrow := listNthD_mem rows ((y + rows.length / 2) % rows.length) [] (Nat.mod_lt _ hoh)
  have hlen := hrect _ hrow
  rw [Option.some_bind, sampleIdxX_zero_one how, npGet_natCast,
    listNth_lt _ _ [] (by rw [hlen]; exact Nat.mod_lt _ how)]

theorem listNth_isSome {P : Type} (l : List P) (n : ℕ) (h : n < l.length) :
    (listNth l n).isSome = true := by
  induction l generalizing n with
  | nil => exact absurd h (Nat.not_lt_zero n)
  | cons a l ih =>
    cases n with
    | zero => rfl
    | succ m => exact ih m (Nat.lt_of_succ_lt_succ h)

theorem sampleCell_isSome {K : Type} [LinearOrderedField K] [FloorRing K] {P : Type}
    (rows : List (List P))
    (hrect : ∀ row ∈ rows, row.length = (rows.headD []).length)
    (hoh : 0 < rows.length) (how : 0 < (rows.headD []).length)
    (sinA cosA : K) (x y : ℕ) :
    (sampleCell rows sinA cosA x y).isSome = true := by
  have hy := wrapFinal_bounds hoh (wrapAdjust rows.length (rotY sinA cosA x y + ((rows.length / 2 : ℕ) : K)))
  have hyb : sampleIdxY sinA cosA rows.length x y = (((sampleIdxY sinA cosA rows.length x y).toNat : ℕ) : ℤ) := by
    unfold sampleIdxY normalizeIdx
    omega
  have hylt : (sampleIdxY sinA cosA rows.length x y).toNat < rows.length := by
    unfold sampleIdxY normalizeIdx
    omega
  unfold sampleCell
  rw [hyb, npGet_natCast, listNth_lt rows _ [] hylt, Option.some_bind]
  have hlen := hrect _ (listNthD_mem rows _ [] hylt)
  have hx := wrapFinal_bounds how (wrapAdjust (rows.headD []).length (rotX sinA cosA x y + (((rows.headD []).length / 2 : ℕ) : K)))
  have hxb : sampleIdxX sinA cosA (rows.headD []).length x y = (((sampleIdxX sinA cosA (rows.headD []).length x y).toNat : ℕ) : ℤ) := by
    unfold sampleIdxX normalizeIdx
    omega
  have hxlt : (sampleIdxX sinA cosA (rows.headD []).length x y).toNat <
      (listNthD rows (sampleIdxY sinA cosA rows.length x y).toNat []).length := by
    rw [hlen]
    unfold sampleIdxX normalizeIdx
    omega
  rw [hxb, npGet_natCast]
  exact listNth_isSome _ _ hxlt

/-! Whole-transform behaviour. -/

theorem buildSamples_zero_one {K : Type} [LinearOrderedField K] [FloorRing K] {α : Type}
    (rows : List (List (List α)))
    (hrect : ∀ row ∈ rows, row.length = (rows.headD []).length)
    (hoh : 0 < rows.length) (how : 0 < (rows.headD []).length) (w h : ℕ) :
    buildSamples rows w h (0 : K) 1 = some (halfShiftTiled rows w h) := by
  unfold buildSamples halfShiftTiled
  rw [optTraverse_eq_some
    (fun r => optTraverse ((List.range w).map fun c => sampleCell rows (0 : K) 1 c r))
    (fun r => (List.range w).map fun c =>
      listNthD (listNthD rows ((r + rows.length / 2) % rows.length) [])
        ((c + (rows.headD []).length / 2) % (rows.headD []).length) [])
    (List.range h)
    (fun r _ => optTraverse_eq_some _ _ (List.range w)
      (fun c _ => sampleCell_zero_one rows hrect hoh how c r))]

theorem transform_half_shift {K : Type} [LinearOrderedField K] [FloorRing K] {α : Type}
    (rows : List (List (List α)))
    (hrect : ∀ row ∈ rows, row.length = (rows.headD []).length)
    (hoh : 0 < rows.length) (how : 0 < (rows.headD []).length) (w h : ℕ) :
    get_tiled_rotated_image w h (NPArr.d3 rows) (0 : K) 1 =
      Except.ok (NPArr.d3 (halfShiftTiled rows w h)) := by
  simp only [get_tiled_rotated_image, buildSamples_zero_one rows hrect hoh how w h]

theorem transform_d2_err {K : Type} [LinearOrderedField K] [FloorRing K] {P : Type}
    (rows : List (List P))
    (hrect : ∀ row ∈ rows, row.length = (rows.headD []).length)
    (hoh : 0 < rows.length) (how : 0 < (rows.headD []).length)
    (sinA cosA : K) (w h : ℕ) :
    get_tiled_rotated_image w h (NPArr.d2 rows) sinA cosA =
      Except.error NPErr.tooManyIndices := by
  have hb : (buildSamples rows w h sinA cosA).isSome = true := by
    unfold buildSamples
    exact optTraverse_isSome _ _
      (fun r _ => optTraverse_isSome _ _
        (fun c _ => sampleCell_isSome rows hrect hoh how sinA cosA c r))
  obtain ⟨s, hs⟩ := Option.isSome_iff_exists.mp hb
  simp only [get_tiled_rotated_image, hs]

theorem transform_empty_d3 {K : Type} [LinearOrderedField K] [FloorRing K] {P : Type}
    (sinA cosA : K) {w h : ℕ} (hw : 0 < w) (hh : 0 < h) :
    get_tiled_rotated_image w h (NPArr.d3 ([] : List (List (List P)))) sinA cosA =
      Except.error NPErr.indexError := by
  have hcell : sampleCell ([] : List (List (List P))) sinA cosA 0 0 = none := by
    unfold sampleCell
    rw [npGet_nil]
    rfl
  have hb : buildSamples ([] : List (List (List P))) w h sinA cosA = none := by
    unfold buildSamples
    exact optTraverse_eq_none _ _ 0 (List.mem_range.mpr hh)
      (optTraverse_eq_none _ _ 0 (List.mem_range.mpr hw) hcell)
  simp only [get_tiled_rotated_image, hb]

theorem sampleCell_unit {K : Type} [LinearOrderedField K] [FloorRing K] {P : Type}
    (v : List P) (sinA cosA : K) (x y : ℕ) :
    sampleCell ([[v]] : List (List (List P))) sinA cosA x y = some v := by
  have h1 : sampleIdxY sinA cosA ([[v]] : List (List (List P))).length x y = 0 := by
    unfold sampleIdxY
    exact normalizeIdx_one _
  have h2 : sampleIdxX sinA cosA (([[v]] : List (List (List P))).headD []).length x y = 0 := by
    unfold sampleIdxX
    exact normalizeIdx_one _
  have hget : npGet ([[v]] : List (List (List P))) (0 : ℤ) = some [v] := rfl
  unfold sampleCell
  rw [h1, hget, Option.some_bind, h2]
  rfl

theorem transform_unit_d3 {K : Type} [LinearOrderedField K] [FloorRing K] {P : Type}
    (v : List P) (sinA cosA : K) (w h : ℕ) :
    get_tiled_rotated_image w h (NPArr.d3 [[v]]) sinA cosA =
      Except.ok (NPArr.d3 (List.replicate h (List.replicate w v))) := by
  have hinner : ∀ r : ℕ,
      optTraverse ((List.range w).map fun c => sampleCell ([[v]] : List (List (List P))) sinA cosA c r) =
        some (List.replicate w v) := by
    intro r
    have hs := optTraverse_eq_some (fun c => sampleCell ([[v]] : List (List (List P))) sinA cosA c r)
      (fun _ => v) (List.range w) (fun c _ => sampleCell_unit v sinA cosA c r)
    rw [hs, List.map_const', List.length_range]
  have hb : buildSamples ([[v]] : List (List (List P))) w h sinA cosA =
      some (List.replicate h (List.replicate w v)) := by
    unfold buildSamples
    rw [optTraverse_eq_some _ (fun _ => List.replicate w v) (List.range h) (fun r _ => hinner r),
      List.map_const', List.length_range]
  simp only [get_tiled_rotated_image, hb]

theorem deg2rad_zero : deg2rad 0 = 0 := by
  unfold deg2rad
  ring

theorem deg2rad_add_360 (θ : ℝ) : deg2rad (θ + 360) = deg2rad θ + 2 * Real.pi := by
  unfold deg2rad
  ring

theorem transformAngle_zero {α : Type} (w h : ℕ) (image : NPArr α) :
    transformAngle w h image 0 = get_tiled_rotated_image w h image (0 : ℝ) 1 := by
  unfold transformAngle
  rw [deg2rad_zero, Real.sin_zero, Real.cos_zero]

/-! Claims. -/

/-- Claim C1, counterexample: for the 2×2 single-channel source
`[[0,0],[0,1]]`, angle 0 and target dimensions equal to the source's, the
transform does not return the source image (it returns the half-shifted
image `[[1,0],[0,0]]`), so the identity property fails. -/
theorem C1_identity_counterexample :
    transformAngle 2 2 (NPArr.d3 [[[(0:ℚ)],[0]],[[0],[1]]]) 0 ≠
      Except.ok (NPArr.d3 [[[(0:ℚ)],[0]],[[0],[1]]]) := by
  rw [transformAngle_zero, transform_half_shift _ (by decide) (by decide) (by decide) 2 2]
  decide

/-- Claim C1 (amended): for angle 0 and target dimensions equal to the
source's, the transform returns the source image cyclically shifted by
`(oheight / 2, owidth / 2)` with toroidal wraparound (for 3-D sources with
positive rectangular dimensions); it is the identity only when that shift
is trivial. -/
theorem C1_amended_half_shift {α : Type} (rows : List (List (List α)))
    (hrect : ∀ row ∈ rows, row.length = (rows.headD []).length)
    (hoh : 0 < rows.length) (how : 0 < (rows.headD []).length) :
    transformAngle (rows.headD []).length rows.length (NPArr.d3 rows) 0 =
      Except.ok (NPArr.d3 (halfShiftTiled rows (rows.headD []).length rows.length)) := by
  rw [transformAngle_zero]
  exact transform_half_shift rows hrect hoh how _ _

/-- Witness for the amended claim C1 at the concrete 2×2 single-channel
source `[[0,1],[2,3]]`. -/
theorem C1_amended_witness :
    (∀ row ∈ [[[(0:ℚ)],[1]],[[2],[3]]], row.length = ([[[(0:ℚ)],[1]],[[2],[3]]].headD []).length) ∧
    0 < [[[(0:ℚ)],[1]],[[2],[3]]].length ∧
    0 < ([[[(0:ℚ)],[1]],[[2],[3]]].headD []).length ∧
    transformAngle 2 2 (NPArr.d3 [[[(0:ℚ)],[1]],[[2],[3]]]) 0 =
      Except.ok (NPArr.d3 (halfShiftTiled [[[(0:ℚ)],[1]],[[2],[3]]] 2 2)) :=
  ⟨by decide, by decide, by decide,
    C1_amended_half_shift [[[(0:ℚ)],[1]],[[2],[3]]] (by decide) (by decide) (by decide)⟩

/-- Claim C2: for every coordinate value and every positive axis length,
the integer index produced by the wrap-normalization stage (conditional
adjustment, then modulo and integer truncation) lies in `[0, owidth)`
(resp. `[0, oheight)`), so every sample index into the source is valid. -/
theorem C2_wrap_normalizer_in_range {K : Type} [LinearOrderedField K] [FloorRing K]
    (v : K) {w : ℕ} (hw : 0 < w) :
    0 ≤ normalizeIdx w v ∧ normalizeIdx w v < (w : ℤ) := by
  unfold normalizeIdx
  exact wrapFinal_bounds hw (wrapAdjust w v)

/-- Witness for claim C2 at `v = -7/3`, `w = 5`. -/
theorem C2_witness :
    0 < 5 ∧ (0 ≤ normalizeIdx 5 ((-7)/3 : ℚ) ∧ normalizeIdx 5 ((-7)/3 : ℚ) < (5 : ℤ)) :=
  ⟨by decide, C2_wrap_normalizer_in_range ((-7)/3 : ℚ) (by decide)⟩

/-- Claim C3: on every output of the conditional-adjustment step, the final
wrap step `(newx % owidth).astype("int")` computes exactly
`int(newx) mod owidth` — truncation to integer first, then integer
modulo. -/
theorem C3_final_step_trunc_then_mod {K : Type} [LinearOrderedField K] [FloorRing K]
    (v : K) {w : ℕ} (hw : 0 < w) :
    wrapFinal w (wrapAdjust w v) = fptrunc (wrapAdjust w v) % (w : ℤ) :=
  wrapFinal_wrapAdjust_eq_trunc_mod hw v

/-- Witness for claim C3 at `v = 9/4`, `w = 2`. -/
theorem C3_witness :
    0 < 2 ∧ wrapFinal 2 (wrapAdjust 2 ((9)/4 : ℚ)) = fptrunc (wrapAdjust 2 ((9)/4 : ℚ)) % (2 : ℤ) :=
  ⟨by decide, C3_final_step_trunc_then_mod ((9)/4 : ℚ) (by decide)⟩

/-- Claim C4: for the 2×2 single-channel checkerboard source
`[[0,1],[1,0]]`, target 4×4 and angle 0, the transform returns the 4×4
image with rows `[0,1,0,1]`, `[1,0,1,0]`, `[0,1,0,1]`, `[1,0,1,0]`, each
channel value copied exactly. -/
theorem C4_checkerboard_tiling :
    transformAngle 4 4 (NPArr.d3 [[[(0:ℚ)],[1]],[[1],[0]]]) 0 =
      Except.ok (NPArr.d3
        [[[(0:ℚ)],[1],[0],[1]],[[1],[0],[1],[0]],[[0],[1],[0],[1]],[[1],[0],[1],[0]]]) := by
  rw [transformAngle_zero, transform_half_shift _ (by decide) (by decide) (by decide) 4 4]
  decide

/-- Claim C5, failing run: a 2-D grayscale source does not stay grayscale —
for every angle, the transform on the 1×1 grayscale source `[[1]]` raises
`IndexError: too many indices` at line 61 (the 2-D output array `new_img`
is indexed with three indices) instead of succeeding with a 2-D output. -/
theorem C5_grayscale_raises (θ : ℝ) :
    transformAngle 2 2 (NPArr.d2 [[(1:ℚ)]]) θ = Except.error NPErr.tooManyIndices := by
  unfold transformAngle
  exact transform_d2_err _ (by decide) (by decide) (by decide) _ _ 2 2

/-- Claim C6, failing run: a zero-sized source is not rejected before the
transform runs — for every angle, the transform on the empty 3-D source
runs to the sampling stage and fails there with an indexing error. -/
theorem C6_zero_dim_not_rejected (θ : ℝ) :
    transformAngle 2 2 (NPArr.d3 ([] : List (List (List ℚ)))) θ =
      Except.error NPErr.indexError := by
  unfold transformAngle
  exact transform_empty_d3 _ _ (by decide) (by decide)

/-- Claim C7, supporting fact: the transform performs no validation of the
angle whatsoever — for arbitrary values of the sine/cosine stage (the only
way the angle enters the pipeline) it proceeds and succeeds, so there is no
up-front rejection of non-finite angles. -/
theorem C7_no_angle_validation (sinA cosA : ℚ) :
    get_tiled_rotated_image 2 2 (NPArr.d3 [[[(1:ℚ)]]]) sinA cosA =
      Except.ok (NPArr.d3 (List.replicate 2 (List.replicate 2 [(1:ℚ)]))) :=
  transform_unit_d3 [(1:ℚ)] sinA cosA 2 2

/-- Claim C8: for every source image, positive target dimensions and angle
θ, the transform at θ and at θ + 360 produce identical outputs (exact
real-valued trigonometry). -/
theorem C8_periodicity {α : Type} (image : NPArr α) (w h : ℕ) (θ : ℝ)
    (hw : 0 < w) (hh : 0 < h) :
    transformAngle w h image θ = transformAngle w h image (θ + 360) := by
  unfold transformAngle
  rw [deg2rad_add_360, Real.sin_add_two_pi, Real.cos_add_two_pi]

/-- Witness for claim C8 at a 1×1×1 source, target 1×1, θ = 30. -/
theorem C8_witness :
    0 < 1 ∧ 0 < 1 ∧
    transformAngle 1 1 (NPArr.d3 [[[(0:ℚ)]]]) 30 =
      transformAngle 1 1 (NPArr.d3 [[[(0:ℚ)]]]) (30 + 360) :=
  ⟨Nat.one_pos, Nat.one_pos,
    C8_periodicity (NPArr.d3 [[[(0:ℚ)]]]) 1 1 30 Nat.one_pos Nat.one_pos⟩

/-- Claim C9, counterexample: for the 1×1 2-D grayscale source `[[3/4]]`,
target 2×2 and angle 0, the transform does not return the uniform image —
it raises `IndexError: too many indices` (line 61 indexes the 2-D output
with three indices). -/
theorem C9_unit_grayscale_counterexample :
    transformAngle 2 2 (NPArr.d2 [[(3/4 : ℚ)]]) 0 = Except.error NPErr.tooManyIndices ∧
    transformAngle 2 2 (NPArr.d2 [[(3/4 : ℚ)]]) 0 ≠
      Except.ok (NPArr.d2 [[(3/4 : ℚ), 3/4],[3/4, 3/4]]) := by
  have herr : transformAngle 2 2 (NPArr.d2 [[(3/4 : ℚ)]]) 0 = Except.error NPErr.tooManyIndices := by
    unfold transformAngle
    exact transform_d2_err _ (by decide) (by decide) (by decide) _ _ 2 2
  refine ⟨herr, ?_⟩
  rw [herr]
  intro hcontra
  exact Except.noConfusion hcontra

/-- Claim C9 (amended): for every 1×1 multi-channel (3-D) source, every
positive target size and every angle, the transform returns an output that
is uniformly the single source pixel everywhere. -/
theorem C9_unit_source_uniform {P : Type} (v : List P) (w h : ℕ) (θ : ℝ)
    (hw : 0 < w) (hh : 0 < h) :
    transformAngle w h (NPArr.d3 [[v]]) θ =
      Except.ok (NPArr.d3 (List.replicate h (List.replicate w v))) := by
  unfold transformAngle
  exact transform_unit_d3 v _ _ w h

/-- Witness for the amended claim C9 at the 1×1×2 source `[[1, 0]]`,
target 2×3, θ = 90. -/
theorem C9_witness :
    0 < 2 ∧ 0 < 3 ∧
    transformAngle 2 3 (NPArr.d3 [[[(1:ℚ), 0]]]) 90 =
      Except.ok (NPArr.d3 (List.replicate 3 (List.replicate 2 [(1:ℚ), 0]))) :=
  ⟨by decide, by decide, C9_unit_source_uniform [(1:ℚ), 0] 2 3 90 (by decide) (by decide)⟩

/-- Claim C10, counterexample: the half-shift formula does not hold for 2-D
(grayscale) sources — on `[[0,1],[2,3]]` with angle 0 the transform raises
`IndexError: too many indices` instead of returning the shifted image
`[[3,2],[1,0]]`. -/
theorem C10_grayscale_counterexample :
    transformAngle 2 2 (NPArr.d2 [[(0:ℚ),1],[2,3]]) 0 = Except.error NPErr.tooManyIndices ∧
    transformAngle 2 2 (NPArr.d2 [[(0:ℚ),1],[2,3]]) 0 ≠
      Except.ok (NPArr.d2 [[(3:ℚ),2],[1,0]]) := by
  have herr : transformAngle 2 2 (NPArr.d2 [[(0:ℚ),1],[2,3]]) 0 = Except.error NPErr.tooManyIndices := by
    unfold transformAngle
    exact transform_d2_err _ (by decide) (by decide) (by decide) _ _ 2 2
  refine ⟨herr, ?_⟩
  rw [herr]
  intro hcontra
  exact Except.noConfusion hcontra

/-- Claim C10 (amended): for every 3-D source of positive rectangular
dimensions and every positive target size, the transform with angle 0
returns the image whose pixel `(r, c)` is the source pixel at row
`(r + oheight / 2) % oheight`, column `(c + owidth / 2) % owidth` — the
source translated by its half-dimensions with toroidal wraparound, then
tiled. -/
theorem C10_zero_angle_half_shift {α : Type} (rows : List (List (List α)))
    (hrect : ∀ row ∈ rows, row.length = (rows.headD []).length)
    (hoh : 0 < rows.length) (how : 0 < (rows.headD []).length)
    (w h : ℕ) (hw : 0 < w) (hh : 0 < h) :
    transformAngle w h (NPArr.d3 rows) 0 =
      Except.ok (NPArr.d3 (halfShiftTiled rows w h)) := by
  rw [transformAngle_zero]
  exact transform_half_shift rows hrect hoh how w h

/-- Witness for the amended claim C10 at the 2×1×1 source `[[5]],[[6]]`,
target 3×2. -/
theorem C10_witness :
    (∀ row ∈ [[[(5:ℚ)]],[[6]]], row.length = ([[[(5:ℚ)]],[[6]]].headD []).length) ∧
    0 < [[[(5:ℚ)]],[[6]]].length ∧
    0 < ([[[(5:ℚ)]],[[6]]].headD []).length ∧
    0 < 3 ∧ 0 < 2 ∧
    transformAngle 3 2 (NPArr.d3 [[[(5:ℚ)]],[[6]]]) 0 =
      Except.ok (NPArr.d3 (halfShiftTiled [[[(5:ℚ)]],[[6]]] 3 2)) :=
  ⟨by decide, by decide, by decide, by decide, by decide,
    C10_zero_angle_half_shift [[[(5:ℚ)]],[[6]]] (by decide) (by decide) (by decide) 3 2
      (by decide) (by decide)⟩

end ImageFillRotate
